import Mathlib

/-!
Verification of the composable predicate/specification subsystem of
`Solid Principles/open_closed_principle.py` (the Open/Closed-Principle
product-filtering example): the data model (`Color`, `Size`, `Product`),
the `Specification` hierarchy (`ColorSpecification`, `SizeSpecification`,
`AndSpecification`), the `__and__` combination operator, and
`ProductFilter.filter`.

Two embeddings of predicate evaluation are given:
  * `Specification.is_satisfied` over well-formed `Product` records (every
    attribute present), matching the typed happy path of the source;
  * `evalDyn` over `DynItem` records with optional attributes, modelling
    Python's dynamic attribute access (`item.color` raises `AttributeError`
    when the attribute is missing) and the lazy left-to-right semantics of
    `all(spec.is_satisfied(item) for spec in self.specifications)` as an
    `Except`-valued evaluator.
-/

namespace OCP

/-- `class Color(Enum)`: available colors for products. -/
inductive Color where
  | RED
  | GREEN
  | BLUE
deriving DecidableEq, Repr

/-- `class Size(Enum)`: available sizes for products. -/
inductive Size where
  | SMALL
  | MEDIUM
  | LARGE
deriving DecidableEq, Repr

/-- `class Product`: a product with a name, color and size. -/
structure Product where
  name : String
  color : Color
  size : Size
deriving DecidableEq, Repr

/-- The `Specification` class hierarchy: the leaf classes
`ColorSpecification(color)` and `SizeSpecification(size)` and the composite
`AndSpecification(*specifications)`, whose variadic argument is modelled as a
list of child specifications. -/
inductive Specification where
  | ColorSpecification (color : Color)
  | SizeSpecification (size : Size)
  | AndSpecification (specifications : List Specification)

mutual

/-- `is_satisfied(self, item)` for each concrete `Specification` subclass:
`ColorSpecification` compares `item.color == self.color`,
`SizeSpecification` compares `item.size == self.size`, and
`AndSpecification` computes
`all(spec.is_satisfied(item) for spec in self.specifications)`. -/
def Specification.is_satisfied : Specification → Product → Bool
  | .ColorSpecification c, item => item.color == c
  | .SizeSpecification s, item => item.size == s
  | .AndSpecification specs, item => allSatisfied specs item

/-- The `all(... for spec in specifications)` loop of
`AndSpecification.is_satisfied`, folded left-to-right over the children. -/
def allSatisfied : List Specification → Product → Bool
  | [], _ => true
  | spec :: rest, item => spec.is_satisfied item && allSatisfied rest item

end

/-- `Specification.__and__(self, other)`: the `&` operator returns
`AndSpecification(self, other)`. -/
def Specification.and (self other : Specification) : Specification :=
  .AndSpecification [self, other]

/-- `ProductFilter.filter(self, items, spec)`: a generator that walks `items`
in order and yields exactly those items satisfying `spec`; embedded as the
list of yielded items. -/
def ProductFilter.filter : List Product → Specification → List Product
  | [], _ => []
  | item :: rest, spec =>
    if spec.is_satisfied item then item :: ProductFilter.filter rest spec
    else ProductFilter.filter rest spec

/-- An item as Python sees it dynamically: each attribute may be absent
(`none`), in which case attribute access raises `AttributeError`. -/
structure DynItem where
  name : String
  color : Option Color
  size : Option Size

/-- Python's `AttributeError`, tagged with which attribute was missing. -/
inductive AttrError where
  | missingColor
  | missingSize
deriving DecidableEq, Repr

mutual

/-- Dynamic-semantics evaluator for `is_satisfied`: attribute access on a
missing attribute raises (`Except.error`), and no subclass of
`Specification` contains a `try/except`, so errors propagate to the caller.
`AndSpecification` evaluates its generator lazily via `evalDynAll`. -/
def evalDyn : Specification → DynItem → Except AttrError Bool
  | .ColorSpecification c, item =>
    match item.color with
    | none => .error .missingColor
    | some col => .ok (col == c)
  | .SizeSpecification s, item =>
    match item.size with
    | none => .error .missingSize
    | some sz => .ok (sz == s)
  | .AndSpecification specs, item => evalDynAll specs item

/-- `all(spec.is_satisfied(item) for spec in self.specifications)` under the
dynamic semantics: children are evaluated left to right, a raised error
propagates, and evaluation stops at the first child returning `False`
(Python's `all` consumes its generator lazily and short-circuits). -/
def evalDynAll : List Specification → DynItem → Except AttrError Bool
  | [], _ => .ok true
  | spec :: rest, item =>
    match evalDyn spec item with
    | .error e => .error e
    | .ok false => .ok false
    | .ok true => evalDynAll rest item

end

/-- `ProductFilter.filter` with item references made explicit: items live in
a store mapping references to `Product` records, the generator walks a list
of references, reads each referenced item, and yields the reference itself
(Python yields the same object reference; the loop body contains no
attribute assignment and no copy, so the store is passed through). -/
def ProductFilter.filterRef (heap : Nat → Product) :
    List Nat → Specification → List Nat × (Nat → Product)
  | [], _ => ([], heap)
  | r :: rest, spec =>
    let tail := ProductFilter.filterRef heap rest spec
    if spec.is_satisfied (heap r) then (r :: tail.1, tail.2) else tail

/-- Whether a specification is one of the atomic attribute predicates
(`ColorSpecification` or `SizeSpecification`), as opposed to the composite
`AndSpecification`. -/
def Specification.atomic : Specification → Bool
  | .ColorSpecification _ => true
  | .SizeSpecification _ => true
  | .AndSpecification _ => false

/-- `apple = Product("Apple", Color.RED, Size.SMALL)` from the demonstration. -/
def apple : Product := ⟨"Apple", .RED, .SMALL⟩

/-- `tree = Product("Tree", Color.GREEN, Size.LARGE)` from the demonstration. -/
def tree : Product := ⟨"Tree", .GREEN, .LARGE⟩

/-- `room = Product("Room", Color.BLUE, Size.LARGE)` from the demonstration. -/
def room : Product := ⟨"Room", .BLUE, .LARGE⟩

/-- `products = [apple, tree, room]` from the demonstration. -/
def products : List Product := [apple, tree, room]

/-- Claim C1: for every item x and every pair of predicates A and B, the
conjunction produced by the combination operator satisfies
(A & B).is_satisfied(x) == (A.is_satisfied(x) and B.is_satisfied(x)). -/
theorem and_spec_conjunction_correct (A B : Specification) (x : Product) :
    (A.and B).is_satisfied x = (A.is_satisfied x && B.is_satisfied x) := by
  simp [Specification.and, Specification.is_satisfied, allSatisfied]

/-- Claim C2: for every finite collection C and predicate P, filter(C, P) is
exactly the subsequence of C consisting of the items satisfying P, in C's
original relative order, with no reordering, no deduplication beyond the
input's, and no cardinality limit. -/
theorem filter_is_ordered_subsequence (C : List Product) (P : Specification) :
    ProductFilter.filter C P = C.filter (fun x => P.is_satisfied x) ∧
    List.Sublist (ProductFilter.filter C P) C := by
  induction C with
  | nil => exact ⟨rfl, List.Sublist.refl []⟩
  | cons a t ih =>
    by_cases h : P.is_satisfied a = true
    · exact ⟨by simp [ProductFilter.filter, h, List.filter_cons, ih.1],
        by simpa [ProductFilter.filter, h] using List.Sublist.cons₂ a ih.2⟩
    · exact ⟨by simp [ProductFilter.filter, h, List.filter_cons, ih.1],
        by simpa [ProductFilter.filter, h] using List.Sublist.cons a ih.2⟩

/-- Claim C3: for all predicates A, B, C and every item x, chained
combination associates:
((A & B) & C).is_satisfied(x) == (A & (B & C)).is_satisfied(x). -/
theorem and_spec_assoc (A B C : Specification) (x : Product) :
    ((A.and B).and C).is_satisfied x = (A.and (B.and C)).is_satisfied x := by
  simp [Specification.and, Specification.is_satisfied, allSatisfied,
    Bool.and_assoc]

/-- Claim C4: evaluating an attribute predicate against an item lacking the
referenced attribute raises an error that surfaces immediately to the caller
(the result is `Except.error`, never an `ok false` coercion). -/
theorem missing_attribute_raises (c : Color) (s : Size) (item : DynItem) :
    (item.color = none →
      evalDyn (.ColorSpecification c) item = .error .missingColor) ∧
    (item.size = none →
      evalDyn (.SizeSpecification s) item = .error .missingSize) := by
  refine ⟨fun h => ?_, fun h => ?_⟩
  · simp [evalDyn, h]
  · simp [evalDyn, h]

/-- Witness for C4: a concrete item with no color and no size attribute. -/
theorem missing_attribute_raises_witness :
    evalDyn (.ColorSpecification .RED) ⟨"ghost", none, none⟩ =
      .error .missingColor ∧
    evalDyn (.SizeSpecification .LARGE) ⟨"ghost", none, none⟩ =
      .error .missingSize :=
  ⟨(missing_attribute_raises .RED .LARGE ⟨"ghost", none, none⟩).1 rfl,
   (missing_attribute_raises .RED .LARGE ⟨"ghost", none, none⟩).2 rfl⟩

/-- Claim C5: conjunction evaluation is left-to-right and short-circuits at
the first failing child: if every child before p is satisfied and p
evaluates to false, the conjunction returns false without evaluating the
children after p, even when a later child's evaluation would raise. -/
theorem and_spec_short_circuit (pre post : List Specification)
    (p : Specification) (item : DynItem)
    (hpre : ∀ q ∈ pre, evalDyn q item = Except.ok true)
    (hp : evalDyn p item = Except.ok false) :
    evalDyn (.AndSpecification (pre ++ p :: post)) item = Except.ok false := by
  have key : evalDynAll (pre ++ p :: post) item = Except.ok false := by
    induction pre with
    | nil => simp [evalDynAll, hp]
    | cons q t ih =>
      have hq := hpre q (List.mem_cons_self q t)
      simp only [List.cons_append, evalDynAll, hq]
      exact ih (fun r hr => hpre r (List.mem_cons_of_mem q hr))
  simpa [evalDyn] using key

/-- Witness for C5: the first child rejects the item's BLUE color, and the
second child would raise (the item has no size attribute), yet the
conjunction evaluates to false without raising. -/
theorem and_spec_short_circuit_witness :
    evalDyn
      (.AndSpecification [.ColorSpecification .RED, .SizeSpecification .LARGE])
      ⟨"ghost2", some .BLUE, none⟩ = Except.ok false :=
  and_spec_short_circuit [] [.SizeSpecification .LARGE]
    (.ColorSpecification .RED) ⟨"ghost2", some .BLUE, none⟩
    (by simp) rfl

/-- Claim C6: a conjunction predicate constructed with zero child predicates
is constructible and is satisfied by every item (vacuously true), under both
the typed and the dynamic evaluation semantics. -/
theorem empty_and_spec_vacuously_true (x : Product) (d : DynItem) :
    (Specification.AndSpecification []).is_satisfied x = true ∧
    evalDyn (.AndSpecification []) d = Except.ok true :=
  ⟨rfl, rfl⟩

/-- Claim C7: on [Apple(RED,SMALL), Tree(GREEN,LARGE), Room(BLUE,LARGE)],
filtering by size==LARGE & color==BLUE yields exactly [Room], and filtering
by color==RED & size==LARGE yields the empty sequence. -/
theorem demo_filter_results :
    ProductFilter.filter products
      ((Specification.SizeSpecification .LARGE).and
        (.ColorSpecification .BLUE)) = [room] ∧
    ProductFilter.filter products
      ((Specification.ColorSpecification .RED).and
        (.SizeSpecification .LARGE)) = [] :=
  ⟨rfl, rfl⟩

/-- Claim C8: filtering any collection by an atomic attribute predicate that
matches no item yields the empty sequence, and by one that matches every
item yields a sequence equal to the input. -/
theorem atomic_spec_filter_none_all (C : List Product) (P : Specification)
    (hatomic : P.atomic = true) :
    ((∀ x ∈ C, P.is_satisfied x = false) → ProductFilter.filter C P = []) ∧
    ((∀ x ∈ C, P.is_satisfied x = true) → ProductFilter.filter C P = C) := by
  refine ⟨fun h => ?_, fun h => ?_⟩
  · induction C with
    | nil => rfl
    | cons a t ih =>
      simp only [ProductFilter.filter, h a (List.mem_cons_self a t),
        Bool.false_eq_true, if_false]
      exact ih (fun x hx => h x (List.mem_cons_of_mem a hx))
  · induction C with
    | nil => rfl
    | cons a t ih =>
      simp only [ProductFilter.filter, h a (List.mem_cons_self a t), if_true]
      exact congrArg (a :: ·) (ih (fun x hx => h x (List.mem_cons_of_mem a hx)))

/-- Witness for C8: size==MEDIUM matches no demo product so the result is
empty; size==LARGE matches every item of [tree, room] so the result equals
the input. -/
theorem atomic_spec_filter_none_all_witness :
    ProductFilter.filter products (.SizeSpecification .MEDIUM) = [] ∧
    ProductFilter.filter [tree, room] (.SizeSpecification .LARGE) =
      [tree, room] :=
  ⟨(atomic_spec_filter_none_all products
      (.SizeSpecification .MEDIUM) rfl).1 (by decide),
   (atomic_spec_filter_none_all [tree, room]
      (.SizeSpecification .LARGE) rfl).2 (by decide)⟩

/-- Claim C9: with item references made explicit, filtering leaves the store
of items unchanged (no item is mutated) and every element of the output is a
reference drawn from the input collection in order (items are never
copied). -/
theorem filter_frame_preservation (heap : Nat → Product) (refs : List Nat)
    (spec : Specification) :
    (ProductFilter.filterRef heap refs spec).2 = heap ∧
    List.Sublist (ProductFilter.filterRef heap refs spec).1 refs := by
  induction refs with
  | nil => exact ⟨rfl, List.Sublist.refl []⟩
  | cons r t ih =>
    by_cases h : spec.is_satisfied (heap r) = true
    · exact ⟨by simp [ProductFilter.filterRef, h, ih.1],
        by simpa [ProductFilter.filterRef, h] using List.Sublist.cons₂ r ih.2⟩
    · exact ⟨by simp [ProductFilter.filterRef, h, ih.1],
        by simpa [ProductFilter.filterRef, h] using List.Sublist.cons r ih.2⟩

/-- Claim C10: for every item x and all predicates A and B whose evaluations
on x return normally (no raise; base predicates are side-effect free),
combination is semantically commutative:
(A & B).is_satisfied(x) == (B & A).is_satisfied(x). -/
theorem and_spec_comm_on_ok (A B : Specification) (item : DynItem)
    (a b : Bool)
    (hA : evalDyn A item = Except.ok a) (hB : evalDyn B item = Except.ok b) :
    evalDyn (A.and B) item = evalDyn (B.and A) item := by
  have hAB : evalDyn (A.and B) item = Except.ok (a && b) := by
    cases a <;> cases b <;>
      simp [Specification.and, evalDyn, evalDynAll, hA, hB]
  have hBA : evalDyn (B.and A) item = Except.ok (b && a) := by
    cases a <;> cases b <;>
      simp [Specification.and, evalDyn, evalDynAll, hA, hB]
  rw [hAB, hBA, Bool.and_comm]

/-- Witness for C10: two concrete non-raising predicates evaluated on a
concrete item. -/
theorem and_spec_comm_on_ok_witness :
    evalDyn ((Specification.ColorSpecification .RED).and
      (.SizeSpecification .SMALL)) ⟨"Apple", some .RED, some .SMALL⟩ =
    evalDyn ((Specification.SizeSpecification .SMALL).and
      (.ColorSpecification .RED)) ⟨"Apple", some .RED, some .SMALL⟩ :=
  and_spec_comm_on_ok (.ColorSpecification .RED) (.SizeSpecification .SMALL)
    ⟨"Apple", some .RED, some .SMALL⟩ true true rfl rfl

end OCP
